import Mathlib

/-!
Verification of the `CargoConfig` merge module (`src/config/cargo.rs`).

The Rust struct `CargoConfig` and its methods `Default::default` and
`CargoConfig::merge` are embedded as Lean definitions below; `merge`
additionally returns the list of informational log messages it emits
(the `info!` calls inside the final `retain`), so that the observable
side effect is part of the model.
-/

/-- Modelled from the spec: the Rust `Mode` enum is declared in the parent
config module (`super::Mode`), whose source is not visible.  The spec
describes it as an enumerated value with variants Test and Build, with
default Test. -/
inductive Mode where
  | test
  | build
deriving DecidableEq, Repr

/-- The `CargoConfig` struct, field for field from `src/config/cargo.rs`.
`usize` is embedded as `Nat`, `Vec<String>` as `List String`,
`Option<String>` as `Option String`. -/
@[ext]
structure CargoConfig where
  locked : Bool
  frozen : Bool
  profile : Option String
  jobs : Option Nat
  all_features : Bool
  no_default_features : Bool
  features : Option String
  all : Bool
  release : Bool
  packages : List String
  exclude : List String
  target : Option String
  offline : Bool
  unstable_features : List String
  command : Mode
  varargs : List String
deriving DecidableEq, Repr

/-- `impl Default for CargoConfig`: every flag false, every option `None`,
every sequence empty, `command = Mode::Test`. -/
def CargoConfig.default : CargoConfig where
  locked := false
  command := Mode.test
  no_default_features := false
  features := none
  unstable_features := []
  all := false
  packages := []
  exclude := []
  varargs := []
  release := false
  all_features := false
  frozen := false
  target := none
  offline := false
  profile := none
  jobs := none

/-- Modelled from the spec: `Config::pick_optional_config` is defined in the
parent config module, whose source is not visible.  Spec §3: "first
non-empty wins — the primary's value is kept if present, otherwise the
secondary's value is adopted". -/
def pick_optional_config {α : Type} (primary secondary : Option α) : Option α :=
  match primary with
  | some v => some v
  | none => secondary

/-- The text of the `info!` message emitted when a package is purged,
from the `retain` closure at the end of `CargoConfig::merge`. -/
def excludeLogMsg (package : String) : String :=
  package ++ " is in exclude list removing from packages"

/-- All of `CargoConfig::merge` up to (but not including) the final
`self.packages.retain(...)` statement, statement by statement from the
source.  Each `additional_*` list is computed by filtering `other`'s
sequence against `self`'s sequence as it stands before any `extend`,
exactly as in the source (where each `collect` completes before the
corresponding `extend` runs). -/
def CargoConfig.mergePrePurge (self other : CargoConfig) : CargoConfig where
  no_default_features := self.no_default_features || other.no_default_features
  release := self.release || other.release
  all_features := self.all_features || other.all_features
  offline := self.offline || other.offline
  target := pick_optional_config self.target other.target
  all := self.all || other.all
  frozen := self.frozen || other.frozen
  locked := self.locked || other.locked
  jobs := if self.jobs.isNone then other.jobs else self.jobs
  profile :=
    if self.profile.isNone && other.profile.isSome then other.profile else self.profile
  features :=
    if other.features.isSome then
      if self.features.isNone then other.features
      else some (self.features.getD "" ++ " " ++ other.features.getD "")
    else self.features
  packages :=
    self.packages ++ other.packages.filter (fun package => !self.packages.contains package)
  exclude :=
    self.exclude ++ other.exclude.filter (fun package => !self.exclude.contains package)
  varargs :=
    self.varargs ++ other.varargs.filter (fun package => !self.varargs.contains package)
  unstable_features :=
    self.unstable_features ++
      other.unstable_features.filter (fun package => !self.unstable_features.contains package)
  command := self.command

/-- `CargoConfig::merge`: the pre-purge field merges followed by the final
`retain` that drops every package contained in the (merged) exclude list,
emitting one `info!` message per dropped package, in traversal order.
Returns the mutated config together with the emitted messages. -/
def CargoConfig.merge (self other : CargoConfig) : CargoConfig × List String :=
  let m := self.mergePrePurge other
  let removed := m.packages.filter (fun package => m.exclude.contains package)
  ({ m with packages := m.packages.filter (fun package => !m.exclude.contains package) },
   removed.map excludeLogMsg)

example :
    (({ CargoConfig.default with packages := ["y", "z"] }).merge
      { CargoConfig.default with packages := ["x", "y"] }).1.packages = ["y", "z", "x"] := by
  decide

example :
    (({ CargoConfig.default with packages := ["y", "z"] }).merge
      { CargoConfig.default with exclude := ["z"] }).1.packages = ["y"] := by
  decide

example :
    (({ CargoConfig.default with packages := ["y", "z"] }).merge
      { CargoConfig.default with exclude := ["z"] }).2 =
      ["z is in exclude list removing from packages"] := by
  decide

/-! ## Helper lemmas -/

/-- Boolean membership test rewritten to a decidable membership proposition. -/
theorem not_contains_eq (l : List String) (x : String) :
    (!l.contains x) = decide (x ∉ l) := by
  by_cases h : x ∈ l <;> simp [h]

/-- The purge log message determines the package it reports. -/
theorem excludeLogMsg_injective : Function.Injective excludeLogMsg := by
  intro a b h
  apply String.ext
  have hd := congrArg String.data h
  rw [excludeLogMsg, excludeLogMsg, String.data_append, String.data_append] at hd
  exact List.append_cancel_right hd

/-- A filter and its complement partition a list's length. -/
theorem length_filter_partition (l : List String) (p : String → Bool) :
    (l.filter p).length + (l.filter (fun a => !p a)).length = l.length := by
  induction l with
  | nil => rfl
  | cons a t ih => by_cases h : p a <;> simp [List.filter_cons, h, ← ih] <;> omega

/-! ## Claim theorems -/

/-- Claim C3: for every pair of configs, each of the seven boolean fields
(locked, frozen, all_features, no_default_features, all, release, offline)
of the merge result is the logical OR of the primary's and the secondary's
field, independently of all other fields. -/
theorem merge_bool_fields_or (p s : CargoConfig) :
    (p.merge s).1.locked = (p.locked || s.locked) ∧
    (p.merge s).1.frozen = (p.frozen || s.frozen) ∧
    (p.merge s).1.all_features = (p.all_features || s.all_features) ∧
    (p.merge s).1.no_default_features = (p.no_default_features || s.no_default_features) ∧
    (p.merge s).1.all = (p.all || s.all) ∧
    (p.merge s).1.release = (p.release || s.release) ∧
    (p.merge s).1.offline = (p.offline || s.offline) :=
  ⟨rfl, rfl, rfl, rfl, rfl, rfl, rfl⟩

/-- Claim C6: the `command` field of the merge result is always the
primary's `command`, whatever either config holds. -/
theorem merge_command_untouched (p s : CargoConfig) :
    (p.merge s).1.command = p.command := rfl

/-- Claim C4: for each optional scalar field (target, jobs, profile), the
merge keeps the primary's value when it is `some`, and adopts the
secondary's value exactly when the primary's is `none`. -/
theorem merge_optional_scalars_first_wins (p s : CargoConfig) :
    (p.merge s).1.target = (if p.target.isSome then p.target else s.target) ∧
    (p.merge s).1.jobs = (if p.jobs.isSome then p.jobs else s.jobs) ∧
    (p.merge s).1.profile = (if p.profile.isSome then p.profile else s.profile) := by
  refine ⟨?_, ?_, ?_⟩
  · rcases hp : p.target with _ | v <;>
      simp [CargoConfig.merge, CargoConfig.mergePrePurge, pick_optional_config, hp]
  · rcases hp : p.jobs with _ | v <;>
      simp [CargoConfig.merge, CargoConfig.mergePrePurge, hp]
  · rcases hp : p.profile with _ | v <;> rcases hs : s.profile with _ | w <;>
      simp [CargoConfig.merge, CargoConfig.mergePrePurge, hp, hs]

/-- Claim C5: the features field of the merge result: unchanged when the
secondary's is unset; adopted wholesale when only the secondary's is set;
the primary's string, a single space, then the secondary's string when
both are set. -/
theorem merge_features_concat (p s : CargoConfig) :
    (s.features = none → (p.merge s).1.features = p.features) ∧
    (p.features = none → (p.merge s).1.features = s.features) ∧
    (∀ a b, p.features = some a → s.features = some b →
      (p.merge s).1.features = some (a ++ " " ++ b)) := by
  refine ⟨?_, ?_, ?_⟩
  · intro hs
    simp [CargoConfig.merge, CargoConfig.mergePrePurge, hs]
  · intro hp
    rcases hs : s.features with _ | w <;>
      simp [CargoConfig.merge, CargoConfig.mergePrePurge, hp, hs]
  · intro a b hp hs
    simp [CargoConfig.merge, CargoConfig.mergePrePurge, hp, hs]

/-- Witness for C5 at concrete inputs, exercising all three cases. -/
theorem merge_features_concat_witness :
    (({ CargoConfig.default with features := some "f1" }).merge
        { CargoConfig.default with features := some "f2" }).1.features =
      some ("f1" ++ " " ++ "f2") ∧
    (({ CargoConfig.default with features := some "f1" }).merge
        CargoConfig.default).1.features = some "f1" ∧
    ((CargoConfig.default).merge
        { CargoConfig.default with features := some "f2" }).1.features = some "f2" :=
  ⟨(merge_features_concat { CargoConfig.default with features := some "f1" }
      { CargoConfig.default with features := some "f2" }).2.2 "f1" "f2" rfl rfl,
   (merge_features_concat { CargoConfig.default with features := some "f1" }
      CargoConfig.default).1 rfl,
   (merge_features_concat CargoConfig.default
      { CargoConfig.default with features := some "f2" }).2.1 rfl⟩

/-- Claim C7: merging a clone of a config into itself leaves each
scalar-wins field (target, jobs, profile) unchanged. -/
theorem merge_clone_scalars_unchanged (c : CargoConfig) :
    (c.merge c).1.target = c.target ∧
    (c.merge c).1.jobs = c.jobs ∧
    (c.merge c).1.profile = c.profile := by
  refine ⟨?_, ?_, ?_⟩
  · rcases h : c.target with _ | v <;>
      simp [CargoConfig.merge, CargoConfig.mergePrePurge, pick_optional_config, h]
  · rcases h : c.jobs with _ | v <;>
      simp [CargoConfig.merge, CargoConfig.mergePrePurge, h]
  · rcases h : c.profile with _ | v <;>
      simp [CargoConfig.merge, CargoConfig.mergePrePurge, h]

/-- Claim C2: for each of packages, exclude, varargs and unstable_features,
the merged sequence is the primary's original sequence followed by exactly
the secondary's elements not already contained (by string equality) in the
primary's original sequence, in the secondary's relative order — for
packages, before the exclude purge runs. -/
theorem merge_sequences_append_novel (p s : CargoConfig) :
    (p.mergePrePurge s).packages =
      p.packages ++ s.packages.filter (fun x => decide (x ∉ p.packages)) ∧
    (p.merge s).1.exclude =
      p.exclude ++ s.exclude.filter (fun x => decide (x ∉ p.exclude)) ∧
    (p.merge s).1.varargs =
      p.varargs ++ s.varargs.filter (fun x => decide (x ∉ p.varargs)) ∧
    (p.merge s).1.unstable_features =
      p.unstable_features ++
        s.unstable_features.filter (fun x => decide (x ∉ p.unstable_features)) := by
  have hc : ∀ (l l' : List String),
      l'.filter (fun x => !l.contains x) = l'.filter (fun x => decide (x ∉ l)) :=
    fun l l' => List.filter_congr (fun x _ => not_contains_eq l x)
  refine ⟨?_, ?_, ?_, ?_⟩
  · rw [show (p.mergePrePurge s).packages =
      p.packages ++ s.packages.filter (fun x => !p.packages.contains x) from rfl, hc]
  · rw [show (p.merge s).1.exclude =
      p.exclude ++ s.exclude.filter (fun x => !p.exclude.contains x) from rfl, hc]
  · rw [show (p.merge s).1.varargs =
      p.varargs ++ s.varargs.filter (fun x => !p.varargs.contains x) from rfl, hc]
  · rw [show (p.merge s).1.unstable_features =
      p.unstable_features ++
        s.unstable_features.filter (fun x => !p.unstable_features.contains x) from rfl, hc]

/-- Claim C1: after a merge the packages list shares no element with the
merged exclude list, and the notifications emitted count exactly one per
occurrence removed from the pre-purge packages list: for any package name,
the number of log messages naming it equals the number of its occurrences
that stood in the pre-purge packages list if it is excluded, else zero. -/
theorem merge_exclude_purge_invariant (p s : CargoConfig) :
    (∀ x ∈ (p.merge s).1.packages, x ∉ (p.merge s).1.exclude) ∧
    (∀ x, ((p.merge s).2).count (excludeLogMsg x) =
      if x ∈ (p.merge s).1.exclude then (p.mergePrePurge s).packages.count x else 0) := by
  constructor
  · intro x hx
    have hx' : x ∈ (p.mergePrePurge s).packages.filter
        (fun pk => !(p.mergePrePurge s).exclude.contains pk) := hx
    have := (List.mem_filter.mp hx').2
    simpa using this
  · intro x
    have hmap : ((p.merge s).2).count (excludeLogMsg x) =
        ((p.mergePrePurge s).packages.filter
          (fun pk => (p.mergePrePurge s).exclude.contains pk)).count x :=
      List.count_map_of_injective _ excludeLogMsg excludeLogMsg_injective x
    rw [hmap]
    by_cases hx : x ∈ (p.merge s).1.exclude
    · rw [if_pos hx]
      exact List.count_filter (by simpa using hx)
    · rw [if_neg hx]
      rw [List.count_eq_zero]
      intro hmem
      exact hx (by simpa using (List.mem_filter.mp hmem).2)

/-- Claim C8: merge is total — on every pair of configs it yields a merged
config and a log list with no failure; the logs are its only observable
effect, one message per package dropped in the purge: their number plus
the surviving packages account for every pre-purge package, and every
message is the purge notification for some pre-purge package that is in
the merged exclude list. -/
theorem merge_total_with_logs (p s : CargoConfig) :
    ∃ r logs, p.merge s = (r, logs) ∧
      logs.length + r.packages.length = (p.mergePrePurge s).packages.length ∧
      ∀ msg ∈ logs, ∃ pkg, msg = excludeLogMsg pkg ∧
        pkg ∈ (p.mergePrePurge s).packages ∧ pkg ∈ r.exclude := by
  refine ⟨(p.merge s).1, (p.merge s).2, rfl, ?_, ?_⟩
  · have hlen : ((p.merge s).2).length =
        ((p.mergePrePurge s).packages.filter
          (fun pk => (p.mergePrePurge s).exclude.contains pk)).length :=
      List.length_map _ _
    rw [hlen]
    exact length_filter_partition _ _
  · intro msg hmsg
    have hmsg' : msg ∈ ((p.mergePrePurge s).packages.filter
        (fun pk => (p.mergePrePurge s).exclude.contains pk)).map excludeLogMsg := hmsg
    rcases List.mem_map.mp hmsg' with ⟨pkg, hpkg, hmsgEq⟩
    rcases List.mem_filter.mp hpkg with ⟨hmem, hcon⟩
    exact ⟨pkg, hmsgEq.symm, hmem, by simpa using hcon⟩

/-- Claim C10: the primary's own exclude, varargs and unstable_features
entries — duplicates included — survive every merge verbatim as a prefix
of the merged sequence; in particular no occurrence count ever drops. -/
theorem merge_primary_sequences_kept (p s : CargoConfig) :
    (∃ t, (p.merge s).1.exclude = p.exclude ++ t) ∧
    (∃ t, (p.merge s).1.varargs = p.varargs ++ t) ∧
    (∃ t, (p.merge s).1.unstable_features = p.unstable_features ++ t) ∧
    (∀ x, p.exclude.count x ≤ (p.merge s).1.exclude.count x) ∧
    (∀ x, p.varargs.count x ≤ (p.merge s).1.varargs.count x) ∧
    (∀ x, p.unstable_features.count x ≤ (p.merge s).1.unstable_features.count x) := by
  refine ⟨⟨_, rfl⟩, ⟨_, rfl⟩, ⟨_, rfl⟩, ?_, ?_, ?_⟩
  · intro x
    have h : (p.merge s).1.exclude.count x =
        p.exclude.count x +
          (s.exclude.filter (fun package => !p.exclude.contains package)).count x :=
      List.count_append x _ _
    omega
  · intro x
    have h : (p.merge s).1.varargs.count x =
        p.varargs.count x +
          (s.varargs.filter (fun package => !p.varargs.contains package)).count x :=
      List.count_append x _ _
    omega
  · intro x
    have h : (p.merge s).1.unstable_features.count x =
        p.unstable_features.count x +
          (s.unstable_features.filter
            (fun package => !p.unstable_features.contains package)).count x :=
      List.count_append x _ _
    omega

/-- Claim C9: the default config is a right identity for merge exactly on
configs already satisfying the purge invariant — merging the default into
any config whose packages and exclude lists are disjoint changes nothing
and logs nothing; yet some config with overlapping packages and exclude
has its packages changed by merging in the default, since the purge also
strips pre-existing entries. -/
theorem merge_default_right_identity :
    (∀ c : CargoConfig, (∀ x ∈ c.packages, x ∉ c.exclude) →
      c.merge CargoConfig.default = (c, [])) ∧
    (∃ c : CargoConfig, (∃ x, x ∈ c.packages ∧ x ∈ c.exclude) ∧
      (c.merge CargoConfig.default).1.packages ≠ c.packages) := by
  constructor
  · intro c hdisj
    have hm : c.mergePrePurge CargoConfig.default = c := by
      have htarget : pick_optional_config c.target (none : Option String) = c.target := by
        rcases c.target with _ | v <;> rfl
      have hjobs : (if c.jobs.isNone then (none : Option Nat) else c.jobs) = c.jobs := by
        rcases c.jobs with _ | v <;> rfl
      ext1 <;> simp [CargoConfig.mergePrePurge, CargoConfig.default, htarget, hjobs]
      intro h
      exact h.symm
    have hkeep : c.packages.filter (fun pk => !c.exclude.contains pk) = c.packages :=
      List.filter_eq_self.mpr (fun a ha => by simpa using hdisj a ha)
    have hrem : c.packages.filter (fun pk => c.exclude.contains pk) = [] :=
      List.filter_eq_nil_iff.mpr (fun a ha => by simpa using hdisj a ha)
    show ({ c.mergePrePurge CargoConfig.default with
        packages := (c.mergePrePurge CargoConfig.default).packages.filter
          (fun pk => !(c.mergePrePurge CargoConfig.default).exclude.contains pk) },
      ((c.mergePrePurge CargoConfig.default).packages.filter
        (fun pk => (c.mergePrePurge CargoConfig.default).exclude.contains pk)).map
          excludeLogMsg) = (c, [])
    rw [hm, hkeep, hrem]
    rfl
  · refine ⟨{ CargoConfig.default with packages := ["z"], exclude := ["z"] }, ?_, ?_⟩
    · exact ⟨"z", by decide, by decide⟩
    · decide

/-- Witness for C9's universal part at a concrete disjoint config. -/
theorem merge_default_right_identity_witness :
    ({ CargoConfig.default with packages := ["a"], exclude := ["b"] } : CargoConfig).merge
        CargoConfig.default =
      ({ CargoConfig.default with packages := ["a"], exclude := ["b"] }, []) :=
  merge_default_right_identity.1
    { CargoConfig.default with packages := ["a"], exclude := ["b"] } (by decide)

/-- Witness for C1 at the spec's purge example. -/
theorem merge_exclude_purge_invariant_witness :
    "y" ∉ (({ CargoConfig.default with packages := ["y", "z"] }).merge
      { CargoConfig.default with exclude := ["z"] }).1.exclude :=
  (merge_exclude_purge_invariant { CargoConfig.default with packages := ["y", "z"] }
    { CargoConfig.default with exclude := ["z"] }).1 "y" (by decide)

/-- Witness for C8 at a concrete pair of configs. -/
theorem merge_total_with_logs_witness :
    ∃ r logs, (({ CargoConfig.default with packages := ["y", "z"] }).merge
        { CargoConfig.default with exclude := ["z"] }) = (r, logs) ∧
      logs.length + r.packages.length =
        (({ CargoConfig.default with packages := ["y", "z"] }).mergePrePurge
          { CargoConfig.default with exclude := ["z"] }).packages.length ∧
      ∀ msg ∈ logs, ∃ pkg, msg = excludeLogMsg pkg ∧
        pkg ∈ (({ CargoConfig.default with packages := ["y", "z"] }).mergePrePurge
          { CargoConfig.default with exclude := ["z"] }).packages ∧ pkg ∈ r.exclude :=
  merge_total_with_logs { CargoConfig.default with packages := ["y", "z"] }
    { CargoConfig.default with exclude := ["z"] }
